import Mathlib

/-!
Shallow embedding of the UFC ELO rating engine (`src/elo.py`).

Float arithmetic of the source is modelled exactly: the weighting policy
(`calculate_k`) uses ℚ (all its constants are decimal literals), and the
rating math (`expected_score`, `update_ratings`) and the replay engine
(`backfill`) use ℝ, since the expected-score formula involves `10 ** x`.
-/

namespace UfcElo

/-- `INITIAL_ELO = 1500.0` from `elo.py`. -/
def INITIAL_ELO : ℚ := 1500.0

/-- `BASE_K = 32.0` from `elo.py`. -/
def BASE_K : ℚ := 32.0

/-- Python's `str.upper()` (ASCII case mapping), modelled on the character
list underlying the string. -/
def pyUpper (s : String) : String :=
  ⟨s.data.map Char.toUpper⟩

/-- Python's `str.startswith(p)`, modelled as list-prefix on the character
lists. -/
def pyStartsWith (s p : String) : Bool :=
  p.data.isPrefixOf s.data

/-- `classify_method`: classify a method string into "finish" or "decision".
Mirrors `elo.py` lines 19-27: upper-case the string, check exact tokens,
then the prefix variants; everything else (including DQ) is "decision". -/
def classify_method (method : String) : String :=
  let method := pyUpper method
  if method ∈ (["KO/TKO", "SUB", "TKO", "KO"] : List String) then "finish"
  else if pyStartsWith method "KO" || pyStartsWith method "TKO" || pyStartsWith method "SUB" then
    "finish"
  else "decision"

/-- The `round_mult` local of `calculate_k` (`elo.py` line 49):
`max(1.0, 1.3 - 0.1 * (finish_round - 1))`. -/
def round_mult (finish_round : ℤ) : ℚ :=
  max 1.0 (1.3 - 0.1 * ((finish_round : ℚ) - 1))

/-- `calculate_k` (`elo.py` lines 30-52): base 32, ×1.5 for finishes,
×1.25 for title fights, × `round_mult` when a finish round is known for a
finish. -/
def calculate_k (method : String) (is_title : Bool) (finish_round : Option ℤ) : ℚ :=
  let k := BASE_K
  let is_finish := classify_method method = "finish"
  let k := if is_finish then k * 1.5 else k
  let k := if is_title then k * 1.25 else k
  let k := match finish_round with
           | some r => if is_finish then k * round_mult r else k
           | none => k
  k

/-- `expected_score` (`elo.py` lines 57-59): expected score for player A
given ratings `ra`, `rb`, namely `1 / (1 + 10 ** ((rb - ra) / 400))`. -/
noncomputable def expected_score (ra rb : ℝ) : ℝ :=
  1.0 / (1.0 + (10.0 : ℝ) ^ ((rb - ra) / 400.0))

/-- `update_ratings` (`elo.py` lines 62-67): `(new_ra, new_rb)` after a
result, where `score_a` is 1 if A wins, 0 if A loses, 0.5 for a draw. -/
noncomputable def update_ratings (ra rb score_a k : ℝ) : ℝ × ℝ :=
  let ea := expected_score ra rb
  (ra + k * (score_a - ea), rb + k * ((1.0 - score_a) - (1.0 - ea)))

/-- `RatingState` (`elo.py` lines 139-143): in-memory tracker for a
fighter's rating in a given ELO track. -/
structure RatingState where
  rating : ℝ
  fights : ℕ

/-- The `RatingState()` default: rating `INITIAL_ELO = 1500.0`, 0 fights. -/
noncomputable def RatingState.default : RatingState :=
  ⟨(INITIAL_ELO : ℚ), 0⟩

/-- One row as selected by the `backfill` query (`elo.py` lines 162-168).
`weight_class`, `method` and `finish_round` are nullable in the DB schema. -/
structure Fight where
  id : ℤ
  event_date : String
  fighter_a_id : ℤ
  fighter_b_id : ℤ
  result : String
  weight_class : Option String
  is_title_fight : Bool
  method : Option String
  finish_round : Option ℤ

/-- Python's `x or default` on a nullable string: `None` and `""` are falsy
and yield the default. -/
def pyOr (x : Option String) (default : String) : String :=
  match x with
  | none => default
  | some s => if s = "" then default else s

/-- One `elo_history` row staged in `history_rows` (`elo.py` lines 221-222):
fighter id, fight id, elo track, rating before, rating after, fight date. -/
structure HistoryRow where
  fighter_id : ℤ
  fight_id : ℤ
  elo_type : String
  elo_before : ℝ
  elo_after : ℝ
  fight_date : String

/-- The mutable state of the `backfill` loop (`elo.py` lines 170-182):
the lazily-populated `ratings` dict (modelled as a total function that
returns the default state for unseen keys, plus the list of keys in
insertion order), the staged `history_rows`, and the two counters. -/
structure BackfillState where
  ratings : ℤ × String → RatingState
  touched : List (ℤ × String)
  history : List HistoryRow
  processed : ℕ
  skipped : ℕ

/-- The lazy-insertion side of `get_state` (`elo.py` lines 173-177): record
a `(fighter_id, elo_type)` key the first time it is referenced. -/
def touch (st : BackfillState) (key : ℤ × String) : BackfillState :=
  if key ∈ st.touched then st else { st with touched := st.touched ++ [key] }

/-- One iteration of the inner `for elo_type in ["unified", weight_class]`
loop of `backfill` (`elo.py` lines 209-222): look up both states, apply
`update_ratings`, write ratings back, bump both fight counts, and stage two
history rows. The two pointwise function updates are sequenced exactly like
the Python attribute mutations, so the aliasing case `fa = fb` behaves as
the dict of mutable objects does. -/
noncomputable def updateTrack (fightId : ℤ) (date : String) (fa fb : ℤ)
    (score_a k : ℝ) (eloType : String) (st : BackfillState) : BackfillState :=
  let st := touch st (fa, eloType)
  let st := touch st (fb, eloType)
  let old_a := (st.ratings (fa, eloType)).rating
  let old_b := (st.ratings (fb, eloType)).rating
  let p := update_ratings old_a old_b score_a k
  let r1 : ℤ × String → RatingState := fun key =>
    if key = (fa, eloType) then ⟨p.1, (st.ratings (fa, eloType)).fights + 1⟩
    else st.ratings key
  let r2 : ℤ × String → RatingState := fun key =>
    if key = (fb, eloType) then ⟨p.2, (r1 (fb, eloType)).fights + 1⟩
    else r1 key
  { st with
    ratings := r2
    history := st.history ++
      [⟨fa, fightId, eloType, old_a, p.1, date⟩,
       ⟨fb, fightId, eloType, old_b, p.2, date⟩] }

/-- The shared processing block of one fight (`elo.py` lines 190-224) once a
score for fighter A has been fixed: compute the K-factor and run the track
loop over `["unified", weight_class]`, then bump `processed`. -/
noncomputable def applyMatch (st : BackfillState) (f : Fight) (score_a : ℝ) :
    BackfillState :=
  let method := pyOr f.method ""
  let weight_class := pyOr f.weight_class "Unknown"
  let k : ℝ := (calculate_k method f.is_title_fight f.finish_round : ℚ)
  let st1 := updateTrack f.id f.event_date f.fighter_a_id f.fighter_b_id
    score_a k "unified" st
  let st2 := updateTrack f.id f.event_date f.fighter_a_id f.fighter_b_id
    score_a k weight_class st1
  { st2 with processed := st2.processed + 1 }

/-- One iteration of the main `for fight in fights` loop of `backfill`
(`elo.py` lines 184-224): skip `nc`/`unknown` results, map `win_a` to score
1.0 and `draw` to 0.5, and skip (with the `skipped` counter) any other
result value. -/
noncomputable def processFight (st : BackfillState) (f : Fight) : BackfillState :=
  if f.result = "nc" ∨ f.result = "unknown" then
    { st with skipped := st.skipped + 1 }
  else if f.result = "win_a" then
    applyMatch st f 1.0
  else if f.result = "draw" then
    applyMatch st f 0.5
  else
    { st with skipped := st.skipped + 1 }

/-- The state `backfill` starts from (`elo.py` lines 170-182): empty dict,
no staged rows, both counters zero. -/
noncomputable def initState : BackfillState :=
  ⟨fun _ => RatingState.default, [], [], 0, 0⟩

/-- `backfill` (`elo.py` lines 146-249), restricted to its in-memory
computation: fold the per-fight step over the chronologically ordered fight
list. -/
noncomputable def backfill (fights : List Fight) : BackfillState :=
  fights.foldl processFight initState

/-- The summary dict returned by `backfill` (`elo.py` lines 244-249). -/
noncomputable def backfillSummary (fights : List Fight) : ℕ × ℕ × ℕ × ℕ :=
  let st := backfill fights
  (st.processed, st.skipped,
   (st.touched.map Prod.fst).dedup.length,
   (st.touched.map Prod.snd).dedup.length)

/-- A concrete well-formed fight: A (id 10) beats B (id 20) by decision,
non-title, in the Lightweight division. -/
def fightDecision : Fight :=
  ⟨1, "2020-01-01", 10, 20, "win_a", some "Lightweight", false, some "Decision", none⟩

/-- A concrete record whose `result` value is not one of the four
well-formed outcomes. -/
def fightBogus : Fight :=
  ⟨2, "2020-01-02", 10, 20, "win_b", some "Lightweight", false, some "Decision", none⟩

/-- A concrete no-contest record. -/
def fightNC : Fight :=
  ⟨3, "2020-01-03", 10, 20, "nc", some "Lightweight", false, some "Overturned", none⟩

/-- A concrete win record with a NULL weight class. -/
def fightNoWC : Fight :=
  ⟨4, "2020-01-04", 10, 20, "win_a", none, false, some "Decision", none⟩

end UfcElo

namespace UfcElo

@[simp]
theorem touch_ratings (st : BackfillState) (key : ℤ × String) :
    (touch st key).ratings = st.ratings := by
  rw [touch]; split <;> rfl

@[simp]
theorem touch_history (st : BackfillState) (key : ℤ × String) :
    (touch st key).history = st.history := by
  rw [touch]; split <;> rfl

@[simp]
theorem touch_processed (st : BackfillState) (key : ℤ × String) :
    (touch st key).processed = st.processed := by
  rw [touch]; split <;> rfl

@[simp]
theorem touch_skipped (st : BackfillState) (key : ℤ × String) :
    (touch st key).skipped = st.skipped := by
  rw [touch]; split <;> rfl

@[simp]
theorem updateTrack_processed (fid : ℤ) (d : String) (fa fb : ℤ) (s k : ℝ)
    (t : String) (st : BackfillState) :
    (updateTrack fid d fa fb s k t st).processed = st.processed := by
  simp [updateTrack]

@[simp]
theorem updateTrack_skipped (fid : ℤ) (d : String) (fa fb : ℤ) (s k : ℝ)
    (t : String) (st : BackfillState) :
    (updateTrack fid d fa fb s k t st).skipped = st.skipped := by
  simp [updateTrack]

theorem updateTrack_history (fid : ℤ) (d : String) (fa fb : ℤ) (s k : ℝ)
    (t : String) (st : BackfillState) :
    (updateTrack fid d fa fb s k t st).history =
      st.history ++
        [⟨fa, fid, t, (st.ratings (fa, t)).rating,
          (update_ratings (st.ratings (fa, t)).rating (st.ratings (fb, t)).rating s k).1, d⟩,
         ⟨fb, fid, t, (st.ratings (fb, t)).rating,
          (update_ratings (st.ratings (fa, t)).rating (st.ratings (fb, t)).rating s k).2, d⟩] := by
  simp [updateTrack]

theorem updateTrack_ratings_of_ne (fid : ℤ) (d : String) (fa fb : ℤ) (s k : ℝ)
    (t : String) (st : BackfillState) (key : ℤ × String)
    (h1 : key ≠ (fa, t)) (h2 : key ≠ (fb, t)) :
    (updateTrack fid d fa fb s k t st).ratings key = st.ratings key := by
  simp [updateTrack, h1, h2]

theorem updateTrack_ratings_fst (fid : ℤ) (d : String) (fa fb : ℤ) (s k : ℝ)
    (t : String) (st : BackfillState) (h : fa ≠ fb) :
    (updateTrack fid d fa fb s k t st).ratings (fa, t) =
      ⟨(update_ratings (st.ratings (fa, t)).rating (st.ratings (fb, t)).rating s k).1,
       (st.ratings (fa, t)).fights + 1⟩ := by
  simp [updateTrack, Prod.ext_iff, h]

theorem updateTrack_ratings_snd (fid : ℤ) (d : String) (fa fb : ℤ) (s k : ℝ)
    (t : String) (st : BackfillState) (h : fa ≠ fb) :
    (updateTrack fid d fa fb s k t st).ratings (fb, t) =
      ⟨(update_ratings (st.ratings (fa, t)).rating (st.ratings (fb, t)).rating s k).2,
       (st.ratings (fb, t)).fights + 1⟩ := by
  simp [updateTrack, Prod.ext_iff, Ne.symm h]

@[simp]
theorem applyMatch_processed (st : BackfillState) (f : Fight) (s : ℝ) :
    (applyMatch st f s).processed = st.processed + 1 := by
  simp [applyMatch]

@[simp]
theorem applyMatch_skipped (st : BackfillState) (f : Fight) (s : ℝ) :
    (applyMatch st f s).skipped = st.skipped := by
  simp [applyMatch]

theorem processFight_of_skip (st : BackfillState) (f : Fight)
    (h : f.result = "nc" ∨ f.result = "unknown") :
    processFight st f = { st with skipped := st.skipped + 1 } := by
  rw [processFight, if_pos h]

theorem processFight_of_win (st : BackfillState) (f : Fight)
    (h : f.result = "win_a") :
    processFight st f = applyMatch st f 1.0 := by
  rw [processFight, if_neg (by simp [h]), if_pos h]

theorem processFight_of_draw (st : BackfillState) (f : Fight)
    (h : f.result = "draw") :
    processFight st f = applyMatch st f 0.5 := by
  rw [processFight, if_neg (by simp [h]), if_neg (by simp [h]), if_pos h]

theorem processFight_of_other (st : BackfillState) (f : Fight)
    (h1 : f.result ≠ "win_a") (h2 : f.result ≠ "draw") :
    processFight st f = { st with skipped := st.skipped + 1 } := by
  rw [processFight]
  split
  · rfl
  · simp [h1, h2]

/-- C9: for all real ratings `ra`, `rb`, the expected scores of the two
sides sum to exactly 1 under real arithmetic:
`expected_score ra rb + expected_score rb ra = 1.0`. -/
theorem expected_score_symmetry (ra rb : ℝ) :
    expected_score ra rb + expected_score rb ra = 1.0 := by
  rw [expected_score, expected_score]
  have h10 : (0:ℝ) < 10.0 := by norm_num
  have e1 : (10.0:ℝ) ^ ((rb - ra) / 400.0) * (10.0:ℝ) ^ ((ra - rb) / 400.0) = 1 := by
    rw [← Real.rpow_add h10]
    have h0 : (rb - ra) / (400.0:ℝ) + (ra - rb) / 400.0 = 0 := by ring
    rw [h0, Real.rpow_zero]
  have p1 : (0:ℝ) < 1.0 + (10.0:ℝ) ^ ((rb - ra) / 400.0) := by
    have := Real.rpow_pos_of_pos h10 ((rb - ra) / 400.0)
    linarith
  have p2 : (0:ℝ) < 1.0 + (10.0:ℝ) ^ ((ra - rb) / 400.0) := by
    have := Real.rpow_pos_of_pos h10 ((ra - rb) / 400.0)
    linarith
  field_simp
  linear_combination -e1

/-- C2: the rating update is zero-sum: for all input ratings `ra`, `rb`,
every score in `{0.0, 0.5, 1.0}`, and every weighting factor `k`, the two
rating deltas produced by `update_ratings` are exact negatives of each
other under real arithmetic. -/
theorem update_ratings_zero_sum (ra rb k score_a : ℝ)
    (h : score_a = 0.0 ∨ score_a = 0.5 ∨ score_a = 1.0) :
    (update_ratings ra rb score_a k).1 - ra =
      -((update_ratings ra rb score_a k).2 - rb) := by
  simp only [update_ratings]
  ring

/-- Witness for C2 at `ra = 1500`, `rb = 1600`, `score_a = 1.0`, `k = 32`. -/
theorem update_ratings_zero_sum_witness :
    ((1.0:ℝ) = 0.0 ∨ (1.0:ℝ) = 0.5 ∨ (1.0:ℝ) = 1.0) ∧
      (update_ratings 1500 1600 1.0 32).1 - 1500 =
        -((update_ratings 1500 1600 1.0 32).2 - 1600) :=
  ⟨Or.inr (Or.inr rfl),
   update_ratings_zero_sum 1500 1600 32 1.0 (Or.inr (Or.inr rfl))⟩

/-- C8: `classify_method` always returns "finish" or "decision" (it is a
total function, never an error); any string that matches none of the
KO/TKO/SUB tokens or prefixes classifies as "decision", and so do the empty
string and "DQ" (disqualification). -/
theorem classify_method_total_default :
    (∀ m : String, classify_method m = "finish" ∨ classify_method m = "decision") ∧
    (∀ m : String,
      ¬(pyUpper m ∈ (["KO/TKO", "SUB", "TKO", "KO"] : List String) ∨
        pyStartsWith (pyUpper m) "KO" = true ∨
        pyStartsWith (pyUpper m) "TKO" = true ∨
        pyStartsWith (pyUpper m) "SUB" = true) →
      classify_method m = "decision") ∧
    classify_method "" = "decision" ∧ classify_method "DQ" = "decision" := by
  refine ⟨fun m => ?_, fun m hm => ?_, by decide, by decide⟩
  · simp only [classify_method]
    split
    · exact Or.inl rfl
    · split
      · exact Or.inl rfl
      · exact Or.inr rfl
  · push_neg at hm
    obtain ⟨h1, h2, h3, h4⟩ := hm
    simp only [classify_method]
    rw [if_neg h1, if_neg (by simp [h2, h3, h4])]

/-- Witness for C8 at the unrecognized method string
"Unanimous Decision". -/
theorem classify_method_total_default_witness :
    ¬(pyUpper "Unanimous Decision" ∈ (["KO/TKO", "SUB", "TKO", "KO"] : List String) ∨
      pyStartsWith (pyUpper "Unanimous Decision") "KO" = true ∨
      pyStartsWith (pyUpper "Unanimous Decision") "TKO" = true ∨
      pyStartsWith (pyUpper "Unanimous Decision") "SUB" = true) ∧
    classify_method "Unanimous Decision" = "decision" :=
  ⟨by decide, classify_method_total_default.2.1 "Unanimous Decision" (by decide)⟩

/-- C5: the weighting factor is always strictly positive; a non-title
decision with unknown round gets exactly the base constant `BASE_K = 32.0`;
a round-1 title finish gets exactly `32 * 1.5 * 1.25 * 1.3 = 78.0`. -/
theorem calculate_k_bounds :
    (∀ (m : String) (t : Bool) (r : Option ℤ), 0 < calculate_k m t r) ∧
    (∀ m : String, classify_method m = "decision" →
      calculate_k m false none = BASE_K) ∧
    (∀ m : String, classify_method m = "finish" →
      calculate_k m true (some 1) = 78) := by
  have hrm : ∀ z : ℤ, 0 < round_mult z := fun z => lt_max_iff.mpr (Or.inl (by norm_num))
  refine ⟨?_, ?_, ?_⟩
  · intro m t r
    simp only [calculate_k]
    rcases r with _ | z
    · split_ifs <;> norm_num [BASE_K]
    · split_ifs <;> norm_num [BASE_K] <;> linarith [hrm z]
  · intro m h
    have hne : ¬(classify_method m = "finish") := by rw [h]; decide
    simp only [calculate_k]
    rw [if_neg hne, if_neg (by decide : ¬(false = true))]
  · intro m h
    simp only [calculate_k, h, eq_self_iff_true, if_true]
    norm_num [round_mult, BASE_K, max_def]

/-- Witness for C5 at the method strings "Decision" and "KO". -/
theorem calculate_k_bounds_witness :
    0 < calculate_k "Decision" false none ∧
    classify_method "Decision" = "decision" ∧
    classify_method "KO" = "finish" ∧
    calculate_k "Decision" false none = BASE_K ∧
    calculate_k "KO" true (some 1) = 78 :=
  ⟨calculate_k_bounds.1 "Decision" false none, by decide, by decide,
   calculate_k_bounds.2.1 "Decision" (by decide),
   calculate_k_bounds.2.2 "KO" (by decide)⟩

/-- C1 counterexample: the round-decay multiplier applied by `calculate_k`
at round 4 is `max(1.0, 1.3 - 0.1*3) = 1.0`, not the claimed 1.05: a
non-title round-4 KO gets `k = 32 * 1.5 * 1.0 = 48`, while the claimed
round-4 multiplier 1.05 would give `32 * 1.5 * 1.05 = 50.4`. -/
theorem round_decay_counterexample :
    calculate_k "KO" false (some 4) = 48 ∧
    round_mult 4 = 1 ∧
    (48 : ℚ) ≠ 32 * 1.5 * 1.05 := by
  have h : classify_method "KO" = "finish" := by decide
  refine ⟨?_, ?_, by norm_num⟩
  · rw [calculate_k]
    simp [h, round_mult, max_def, BASE_K]
    norm_num
  · rw [round_mult, max_def]
    norm_num

/-- C1 amended: for every finish with a known finish round, `calculate_k`
applies the multiplier `max(1.0, 1.3 - 0.1*(round-1))`, which yields 1.3
for round 1, 1.2 for round 2, 1.1 for round 3, and 1.0 for round 4 and
later (the decay bottoms out at round 4, not round 5). -/
theorem round_decay_amended :
    round_mult 1 = 1.3 ∧ round_mult 2 = 1.2 ∧ round_mult 3 = 1.1 ∧
    (∀ r : ℤ, 4 ≤ r → round_mult r = 1.0) ∧
    (∀ (m : String) (t : Bool) (r : ℤ), classify_method m = "finish" →
      calculate_k m t (some r) =
        BASE_K * 1.5 * (if t then 1.25 else 1) * round_mult r) := by
  refine ⟨?_, ?_, ?_, fun r hr => ?_, fun m t r h => ?_⟩
  · rw [round_mult, max_def]; norm_num
  · rw [round_mult, max_def]; norm_num
  · rw [round_mult, max_def]; norm_num
  · have hq : (4:ℚ) ≤ (r:ℚ) := by exact_mod_cast hr
    rw [round_mult, max_eq_left (by linarith)]
  · simp only [calculate_k]
    cases t <;> simp [h]

/-- Witness for C1's amended claim at round 5 and the method "SUB". -/
theorem round_decay_amended_witness :
    (4:ℤ) ≤ 5 ∧ round_mult 5 = 1.0 ∧ classify_method "SUB" = "finish" ∧
    calculate_k "SUB" false (some 5) =
      BASE_K * 1.5 * (if false then 1.25 else 1) * round_mult 5 :=
  ⟨by norm_num, round_decay_amended.2.2.2.1 5 (by norm_num), by decide,
   round_decay_amended.2.2.2.2 "SUB" false 5 (by decide)⟩

theorem processFight_counts (st : BackfillState) (f : Fight) :
    (processFight st f).processed + (processFight st f).skipped =
      st.processed + st.skipped + 1 := by
  by_cases h1 : f.result = "nc" ∨ f.result = "unknown"
  · rw [processFight_of_skip st f h1]
    simp
    omega
  · by_cases h2 : f.result = "win_a"
    · rw [processFight_of_win st f h2]
      simp
      omega
    · by_cases h3 : f.result = "draw"
      · rw [processFight_of_draw st f h3]
        simp
        omega
      · rw [processFight_of_other st f h2 h3]
        simp
        omega

theorem backfill_counts_aux (fs : List Fight) (st : BackfillState) :
    (fs.foldl processFight st).processed + (fs.foldl processFight st).skipped =
      st.processed + st.skipped + fs.length := by
  induction fs generalizing st with
  | nil => simp
  | cons f fs ih =>
    simp only [List.foldl_cons, List.length_cons]
    rw [ih]
    have := processFight_counts st f
    omega

theorem applyMatch_frame (st : BackfillState) (f : Fight) (s : ℝ)
    (hab : f.fighter_a_id ≠ f.fighter_b_id)
    (hwc : pyOr f.weight_class "Unknown" ≠ "unified") :
    (∀ key : ℤ × String,
        key ≠ (f.fighter_a_id, "unified") → key ≠ (f.fighter_b_id, "unified") →
        key ≠ (f.fighter_a_id, pyOr f.weight_class "Unknown") →
        key ≠ (f.fighter_b_id, pyOr f.weight_class "Unknown") →
        (applyMatch st f s).ratings key = st.ratings key) ∧
    ((applyMatch st f s).ratings (f.fighter_a_id, "unified")).fights =
      (st.ratings (f.fighter_a_id, "unified")).fights + 1 ∧
    ((applyMatch st f s).ratings (f.fighter_b_id, "unified")).fights =
      (st.ratings (f.fighter_b_id, "unified")).fights + 1 ∧
    ((applyMatch st f s).ratings (f.fighter_a_id, pyOr f.weight_class "Unknown")).fights =
      (st.ratings (f.fighter_a_id, pyOr f.weight_class "Unknown")).fights + 1 ∧
    ((applyMatch st f s).ratings (f.fighter_b_id, pyOr f.weight_class "Unknown")).fights =
      (st.ratings (f.fighter_b_id, pyOr f.weight_class "Unknown")).fights + 1 := by
  have hwu : ("unified" : String) ≠ pyOr f.weight_class "Unknown" := fun h => hwc h.symm
  have hau : (f.fighter_a_id, ("unified" : String)) ≠
      (f.fighter_a_id, pyOr f.weight_class "Unknown") := by simp [hwu]
  have hbu : (f.fighter_b_id, ("unified" : String)) ≠
      (f.fighter_b_id, pyOr f.weight_class "Unknown") := by simp [hwu]
  have hau' : (f.fighter_a_id, ("unified" : String)) ≠
      (f.fighter_b_id, pyOr f.weight_class "Unknown") := by simp [hwu]
  have hbu' : (f.fighter_b_id, ("unified" : String)) ≠
      (f.fighter_a_id, pyOr f.weight_class "Unknown") := by simp [hwu]
  have haw : (f.fighter_a_id, pyOr f.weight_class "Unknown") ≠
      (f.fighter_a_id, ("unified" : String)) := by simp [hwc]
  have hbw : (f.fighter_b_id, pyOr f.weight_class "Unknown") ≠
      (f.fighter_b_id, ("unified" : String)) := by simp [hwc]
  have haw' : (f.fighter_a_id, pyOr f.weight_class "Unknown") ≠
      (f.fighter_b_id, ("unified" : String)) := by simp [hwc]
  have hbw' : (f.fighter_b_id, pyOr f.weight_class "Unknown") ≠
      (f.fighter_a_id, ("unified" : String)) := by simp [hwc]
  simp only [applyMatch]
  refine ⟨fun key h1 h2 h3 h4 => ?_, ?_, ?_, ?_, ?_⟩
  · rw [updateTrack_ratings_of_ne _ _ _ _ _ _ _ _ _ h3 h4,
      updateTrack_ratings_of_ne _ _ _ _ _ _ _ _ _ h1 h2]
  · rw [updateTrack_ratings_of_ne _ _ _ _ _ _ _ _ _ hau hau',
      updateTrack_ratings_fst _ _ _ _ _ _ _ _ hab]
  · rw [updateTrack_ratings_of_ne _ _ _ _ _ _ _ _ _ hbu' hbu,
      updateTrack_ratings_snd _ _ _ _ _ _ _ _ hab]
  · rw [updateTrack_ratings_fst _ _ _ _ _ _ _ _ hab,
      updateTrack_ratings_of_ne _ _ _ _ _ _ _ _ _ haw haw']
  · rw [updateTrack_ratings_snd _ _ _ _ _ _ _ _ hab,
      updateTrack_ratings_of_ne _ _ _ _ _ _ _ _ _ hbw' hbw]

/-- C3 counterexample: a record whose outcome value is not one of the four
well-formed outcomes (here `result = "win_b"`) is silently skipped by the
replay loop — the run completes with `skipped = 1`, `processed = 0`, and no
error is reported — refuting the claim that such records abort the run. -/
theorem backfill_bogus_result_counterexample :
    (backfill [fightBogus]).skipped = 1 ∧
    (backfill [fightBogus]).processed = 0 ∧
    (backfill [fightBogus]).history = [] := by
  have h : processFight initState fightBogus =
      { initState with skipped := initState.skipped + 1 } :=
    processFight_of_other _ _ (by decide) (by decide)
  simp only [backfill, List.foldl_cons, List.foldl_nil]
  rw [h]
  simp [initState]

/-- C3 amended: every record whose outcome value is not `win_a` or `draw`
(this includes no-contest, unknown, and any malformed value) is silently
skipped: the loop only increments the `skipped` counter and leaves the
rating state and history untouched, rather than reporting an error. -/
theorem backfill_bogus_result_skipped (st : BackfillState) (f : Fight)
    (h1 : f.result ≠ "win_a") (h2 : f.result ≠ "draw") :
    processFight st f = { st with skipped := st.skipped + 1 } :=
  processFight_of_other st f h1 h2

/-- Witness for C3's amended claim at the concrete record with result
`"win_b"`. -/
theorem backfill_bogus_result_skipped_witness :
    fightBogus.result ≠ "win_a" ∧ fightBogus.result ≠ "draw" ∧
    processFight initState fightBogus =
      { initState with skipped := initState.skipped + 1 } :=
  ⟨by decide, by decide,
   backfill_bogus_result_skipped initState fightBogus (by decide) (by decide)⟩

/-- C6: summary counts satisfy `processed + skipped = total input records`,
and a record with a no-contest or unknown outcome produces no rating-state
mutation and no rating history entries. -/
theorem backfill_skip_accounting :
    (∀ fs : List Fight,
      (backfill fs).processed + (backfill fs).skipped = fs.length) ∧
    (∀ (st : BackfillState) (f : Fight), f.result = "nc" ∨ f.result = "unknown" →
      (processFight st f).ratings = st.ratings ∧
      (processFight st f).history = st.history) := by
  constructor
  · intro fs
    have h := backfill_counts_aux fs initState
    simpa [backfill, initState] using h
  · intro st f h
    rw [processFight_of_skip st f h]
    exact ⟨rfl, rfl⟩

/-- Witness for C6 at the concrete no-contest record. -/
theorem backfill_skip_accounting_witness :
    (fightNC.result = "nc" ∨ fightNC.result = "unknown") ∧
    (processFight initState fightNC).ratings = initState.ratings ∧
    (processFight initState fightNC).history = initState.history :=
  ⟨Or.inl (by decide),
   backfill_skip_accounting.2 initState fightNC (Or.inl (by decide))⟩

/-- C4: a processed match (distinct fighters, category distinct from the
universal track) updates exactly the four rating-state entries
(A, unified), (B, unified), (A, category), (B, category), each by exactly
one match; every other (competitor, track) state is unchanged. -/
theorem processFight_two_tracks (st : BackfillState) (f : Fight)
    (hres : f.result = "win_a" ∨ f.result = "draw")
    (hab : f.fighter_a_id ≠ f.fighter_b_id)
    (hwc : pyOr f.weight_class "Unknown" ≠ "unified") :
    (∀ key : ℤ × String,
        key ≠ (f.fighter_a_id, "unified") → key ≠ (f.fighter_b_id, "unified") →
        key ≠ (f.fighter_a_id, pyOr f.weight_class "Unknown") →
        key ≠ (f.fighter_b_id, pyOr f.weight_class "Unknown") →
        (processFight st f).ratings key = st.ratings key) ∧
    ((processFight st f).ratings (f.fighter_a_id, "unified")).fights =
      (st.ratings (f.fighter_a_id, "unified")).fights + 1 ∧
    ((processFight st f).ratings (f.fighter_b_id, "unified")).fights =
      (st.ratings (f.fighter_b_id, "unified")).fights + 1 ∧
    ((processFight st f).ratings (f.fighter_a_id, pyOr f.weight_class "Unknown")).fights =
      (st.ratings (f.fighter_a_id, pyOr f.weight_class "Unknown")).fights + 1 ∧
    ((processFight st f).ratings (f.fighter_b_id, pyOr f.weight_class "Unknown")).fights =
      (st.ratings (f.fighter_b_id, pyOr f.weight_class "Unknown")).fights + 1 := by
  rcases hres with h | h
  · rw [processFight_of_win st f h]
    exact applyMatch_frame st f 1.0 hab hwc
  · rw [processFight_of_draw st f h]
    exact applyMatch_frame st f 0.5 hab hwc

/-- Witness for C4 at the concrete decision win and the untouched key
`(99, "unified")`. -/
theorem processFight_two_tracks_witness :
    (fightDecision.result = "win_a" ∨ fightDecision.result = "draw") ∧
    fightDecision.fighter_a_id ≠ fightDecision.fighter_b_id ∧
    pyOr fightDecision.weight_class "Unknown" ≠ "unified" ∧
    (processFight initState fightDecision).ratings (99, "unified") =
      initState.ratings (99, "unified") ∧
    ((processFight initState fightDecision).ratings (10, "unified")).fights =
      (initState.ratings (10, "unified")).fights + 1 :=
  ⟨Or.inl (by decide), by decide, by decide,
   (processFight_two_tracks initState fightDecision (Or.inl (by decide))
      (by decide) (by decide)).1 (99, "unified")
      (by decide) (by decide) (by decide) (by decide),
   (processFight_two_tracks initState fightDecision (Or.inl (by decide))
      (by decide) (by decide)).2.1⟩

/-- C10: every processed record (result `win_a` or `draw`) whose category
label is NULL or the empty string gets the category track name "Unknown":
the match is processed (not skipped) and its four history rows are written
against the "unified" and "Unknown" tracks. -/
theorem backfill_missing_weight_class (st : BackfillState) (f : Fight)
    (hwc : f.weight_class = none ∨ f.weight_class = some "")
    (hres : f.result = "win_a" ∨ f.result = "draw") :
    (processFight st f).processed = st.processed + 1 ∧
    (processFight st f).skipped = st.skipped ∧
    (processFight st f).history.map HistoryRow.elo_type =
      st.history.map HistoryRow.elo_type ++
        ["unified", "unified", "Unknown", "Unknown"] := by
  have hw : pyOr f.weight_class "Unknown" = "Unknown" := by
    rcases hwc with h | h <;> simp [pyOr, h]
  rcases hres with h | h
  · rw [processFight_of_win st f h]
    refine ⟨applyMatch_processed st f 1.0, applyMatch_skipped st f 1.0, ?_⟩
    simp only [applyMatch, hw]
    rw [updateTrack_history, updateTrack_history]
    simp [hw]
  · rw [processFight_of_draw st f h]
    refine ⟨applyMatch_processed st f 0.5, applyMatch_skipped st f 0.5, ?_⟩
    simp only [applyMatch, hw]
    rw [updateTrack_history, updateTrack_history]
    simp [hw]

/-- Witness for C10 at the concrete record with a NULL weight class. -/
theorem backfill_missing_weight_class_witness :
    (fightNoWC.weight_class = none ∨ fightNoWC.weight_class = some "") ∧
    (fightNoWC.result = "win_a" ∨ fightNoWC.result = "draw") ∧
    (processFight initState fightNoWC).processed = initState.processed + 1 ∧
    (processFight initState fightNoWC).history.map HistoryRow.elo_type =
      initState.history.map HistoryRow.elo_type ++
        ["unified", "unified", "Unknown", "Unknown"] :=
  ⟨Or.inl rfl, Or.inl rfl,
   (backfill_missing_weight_class initState fightNoWC (Or.inl rfl) (Or.inl rfl)).1,
   (backfill_missing_weight_class initState fightNoWC (Or.inl rfl) (Or.inl rfl)).2.2⟩

theorem expected_score_self (r : ℝ) : expected_score r r = 0.5 := by
  rw [expected_score]
  have h0 : (r - r) / (400.0 : ℝ) = 0 := by ring
  rw [h0, Real.rpow_zero]
  norm_num

theorem update_ratings_seed_win : update_ratings 1500 1500 1.0 32 = (1516, 1484) := by
  simp only [update_ratings, expected_score_self]
  norm_num [Prod.ext_iff]

/-- C7: two unseen competitors (ids 10 and 20), A wins by decision,
non-title: post ratings are 1516 for A and 1484 for B with both match
counts 1, in both the universal track and the match's Lightweight track. -/
theorem backfill_first_match_seed :
    (backfill [fightDecision]).ratings (10, "unified") = ⟨1516, 1⟩ ∧
    (backfill [fightDecision]).ratings (20, "unified") = ⟨1484, 1⟩ ∧
    (backfill [fightDecision]).ratings (10, "Lightweight") = ⟨1516, 1⟩ ∧
    (backfill [fightDecision]).ratings (20, "Lightweight") = ⟨1484, 1⟩ := by
  have hb : backfill [fightDecision] = applyMatch initState fightDecision 1.0 := by
    simp only [backfill, List.foldl_cons, List.foldl_nil]
    exact processFight_of_win _ _ (by decide)
  have hkq : calculate_k "Decision" false none = 32 := by
    have hne : ¬(classify_method "Decision" = "finish") := by decide
    simp only [calculate_k]
    rw [if_neg hne, if_neg (by decide : ¬(false = true))]
    norm_num [BASE_K]
  have hk : ((calculate_k (pyOr fightDecision.method "") fightDecision.is_title_fight
      fightDecision.finish_round : ℚ) : ℝ) = 32 := by
    have h1 : pyOr fightDecision.method "" = "Decision" := by decide
    rw [h1]
    show ((calculate_k "Decision" false none : ℚ) : ℝ) = 32
    rw [hkq]
    norm_num
  have hinit : ∀ key : ℤ × String, initState.ratings key = ⟨1500, 0⟩ := by
    intro key
    show RatingState.default = _
    rw [RatingState.default]
    simp [RatingState.mk.injEq]
    norm_num [INITIAL_ELO]
  have hfa : fightDecision.fighter_a_id = 10 := rfl
  have hfb : fightDecision.fighter_b_id = 20 := rfl
  have hwc : pyOr fightDecision.weight_class "Unknown" = "Lightweight" := by decide
  rw [hb]
  simp only [applyMatch]
  rw [hk, hfa, hfb, hwc]
  refine ⟨?_, ?_, ?_, ?_⟩
  · rw [updateTrack_ratings_of_ne _ _ _ _ _ _ _ _ _ (by decide) (by decide),
      updateTrack_ratings_fst _ _ _ _ _ _ _ _ (by decide : (10 : ℤ) ≠ 20)]
    simp only [hinit]
    rw [update_ratings_seed_win]
  · rw [updateTrack_ratings_of_ne _ _ _ _ _ _ _ _ _ (by decide) (by decide),
      updateTrack_ratings_snd _ _ _ _ _ _ _ _ (by decide : (10 : ℤ) ≠ 20)]
    simp only [hinit]
    rw [update_ratings_seed_win]
  · rw [updateTrack_ratings_fst _ _ _ _ _ _ _ _ (by decide : (10 : ℤ) ≠ 20),
      updateTrack_ratings_of_ne _ _ _ _ _ _ _ _ _ (by decide) (by decide),
      updateTrack_ratings_of_ne _ _ _ _ _ _ _ _ _ (by decide) (by decide)]
    simp only [hinit]
    rw [update_ratings_seed_win]
  · rw [updateTrack_ratings_snd _ _ _ _ _ _ _ _ (by decide : (10 : ℤ) ≠ 20),
      updateTrack_ratings_of_ne _ _ _ _ _ _ _ _ _ (by decide) (by decide),
      updateTrack_ratings_of_ne _ _ _ _ _ _ _ _ _ (by decide) (by decide)]
    simp only [hinit]
    rw [update_ratings_seed_win]

end UfcElo
